import Mathlib

/-!
Verification development for the `mhtml_converter` package: a shallow
embedding in Lean 4 of `parser.py` (class `MHTMLParser`) and `splitter.py`
(class `MHTMLSplitter`), together with theorems settling the behavioural
claims about boundary discovery, part decoding, resource extraction,
HTML assembly and size-aware splitting.

Python strings are modelled by Lean `String` (a wrapper around
`List Char`); Python `bytes` values by `List Nat` (each entry < 256).
Library primitives that live outside the package (the `base64`, `quopri`
and codec modules, and the filesystem) are modelled as components of an
explicit `Env` record of oracle functions, quantified over in the
theorems.  Python's `str.lower` / case-insensitive regex matching is
modelled with ASCII case folding.
-/

set_option maxRecDepth 100000

namespace MhtmlConv

/-! ### Python string primitives -/

/-- The ASCII whitespace characters recognised by `str.strip()` /
`str.split()` with no argument. -/
def pyWhitespace : List Char := [' ', '\t', '\n', '\r', '\x0b', '\x0c']

def isPySpace (c : Char) : Bool := pyWhitespace.contains c

def lstripChars (cs : List Char) (l : List Char) : List Char :=
  l.dropWhile (fun c => cs.contains c)

def rstripChars (cs : List Char) (l : List Char) : List Char :=
  (l.reverse.dropWhile (fun c => cs.contains c)).reverse

/-- Python `s.strip()`. -/
def pyStrip (s : String) : String :=
  ⟨rstripChars pyWhitespace (lstripChars pyWhitespace s.data)⟩

/-- Python `s.rstrip(chars)`. -/
def pyRstrip (cs : List Char) (s : String) : String := ⟨rstripChars cs s.data⟩

/-- Python `s.strip(chars)`. -/
def pyStripSet (cs : List Char) (s : String) : String :=
  ⟨rstripChars cs (lstripChars cs s.data)⟩

/-- Python `s.lower()` (ASCII case folding). -/
def pyLower (s : String) : String := ⟨s.data.map Char.toLower⟩

/-- Python `pat in s` (substring containment). -/
def listContainsSub (pat : List Char) : List Char → Bool
  | [] => pat.isEmpty
  | c :: rest => pat.isPrefixOf (c :: rest) || listContainsSub pat rest

def pyContains (s pat : String) : Bool := listContainsSub pat.data s.data

/-- Python `s.startswith(p)`. -/
def pyStartsWith (s p : String) : Bool := p.data.isPrefixOf s.data

/-- Auxiliary for `pySplit`: split on every occurrence of `sep`.  The
fuel argument (instantiated with the input length, which bounds the
number of steps) keeps the recursion structural so that the kernel can
evaluate it. -/
def splitAux (sep : List Char) : Nat → List Char → List Char → List (List Char)
  | _, [], acc => [acc.reverse]
  | 0, l, acc => [acc.reverse ++ l]
  | fuel + 1, c :: rest, acc =>
    if sep.isPrefixOf (c :: rest) ∧ sep ≠ [] then
      acc.reverse :: splitAux sep fuel (List.drop (sep.length - 1) rest) []
    else
      splitAux sep fuel rest (c :: acc)

/-- Python `s.split(sep)` for a non-empty separator (a call with an empty
separator raises in Python and never occurs in the embedded code). -/
def pySplit (sep s : String) : List String :=
  (splitAux sep.data s.data.length s.data []).map (fun l => ⟨l⟩)

/-- Auxiliary for `pySplitOnce`. -/
def splitOnceAux (sep : List Char) : List Char → List Char → Option (List Char × List Char)
  | [], _ => none
  | c :: rest, acc =>
    if sep.isPrefixOf (c :: rest) ∧ sep ≠ [] then
      some (acc.reverse, List.drop (sep.length - 1) rest)
    else
      splitOnceAux sep rest (c :: acc)

/-- Python `s.split(sep, 1)`: the text before and after the first
occurrence of `sep`, or `none` when `sep` does not occur. -/
def pySplitOnce (sep s : String) : Option (String × String) :=
  (splitOnceAux sep.data s.data []).map (fun p => (⟨p.1⟩, ⟨p.2⟩))

/-- Auxiliary for `pySplitlines` (recognising `\r\n`, `\r` and `\n`). -/
def splitlinesAux : List Char → List Char → List (List Char)
  | [], acc => if acc.isEmpty then [] else [acc.reverse]
  | '\r' :: '\n' :: rest, acc => acc.reverse :: splitlinesAux rest []
  | '\r' :: rest, acc => acc.reverse :: splitlinesAux rest []
  | '\n' :: rest, acc => acc.reverse :: splitlinesAux rest []
  | c :: rest, acc => splitlinesAux rest (c :: acc)

/-- Python `s.splitlines()` restricted to the `\n` / `\r\n` / `\r`
terminators (the exotic Unicode line breaks do not occur in the inputs
considered here). -/
def pySplitlines (s : String) : List String :=
  (splitlinesAux s.data []).map (fun l => ⟨l⟩)

/-- Python `''.join(s.split())`: every whitespace character removed. -/
def stripAllWS (s : String) : String := ⟨s.data.filter (fun c => !isPySpace c)⟩

/-- Auxiliary for `pyReplace`: leftmost non-overlapping replacement of a
non-empty pattern, with structural fuel (instantiated with the input
length, which bounds the number of steps). -/
def replaceAux (pat rep : List Char) : Nat → List Char → List Char
  | _, [] => []
  | 0, l => l
  | fuel + 1, c :: rest =>
    if pat.isPrefixOf (c :: rest) ∧ pat ≠ [] then
      rep ++ replaceAux pat rep fuel (List.drop (pat.length - 1) rest)
    else
      c :: replaceAux pat rep fuel rest

/-- Python `s.replace(pat, rep)` for non-empty `pat` (every pattern the
embedded code passes is non-empty because of its literal scaffolding). -/
def pyReplace (s pat rep : String) : String :=
  ⟨replaceAux pat.data rep.data s.data.length s.data⟩

/-- Case-insensitive prefix test (ASCII folding), modelling how
`re.IGNORECASE` matches an escaped literal pattern. -/
def ciPrefixOf (pat l : List Char) : Bool :=
  (pat.map Char.toLower).isPrefixOf (l.map Char.toLower)

/-- Auxiliary for `replaceCI`, with structural fuel. -/
def replaceCIAux (pat rep : List Char) : Nat → List Char → List Char
  | _, [] => []
  | 0, l => l
  | fuel + 1, c :: rest =>
    if ciPrefixOf pat (c :: rest) ∧ pat ≠ [] then
      rep ++ replaceCIAux pat rep fuel (List.drop (pat.length - 1) rest)
    else
      c :: replaceCIAux pat rep fuel rest

/-- Python `re.sub(re.escape(pat), rep, s, flags=re.IGNORECASE)`:
leftmost non-overlapping case-insensitive replacement of the literal
`pat` (the embedded replacement strings carry no backslash escapes). -/
def replaceCI (s pat rep : String) : String :=
  ⟨replaceCIAux pat.data rep.data s.data.length s.data⟩

/-- `len(s.encode('utf-8'))`. -/
def utf8Len (s : String) : Nat := (s.data.map Char.utf8Size).sum

/-- UTF-8 encoding of one scalar value. -/
def utf8EncodeChar (c : Char) : List Nat :=
  let n := c.toNat
  if n < 128 then [n]
  else if n < 2048 then [192 + n / 64, 128 + n % 64]
  else if n < 65536 then [224 + n / 4096, 128 + (n / 64) % 64, 128 + n % 64]
  else [240 + n / 262144, 128 + (n / 4096) % 64, 128 + (n / 64) % 64, 128 + n % 64]

/-- Python `s.encode('utf-8')` as a byte list. -/
def utf8Encode (s : String) : List Nat := (s.data.map utf8EncodeChar).flatten

/-! ### MD5 (`hashlib.md5`)

`MHTMLParser._generate_image_filename` truncates
`hashlib.md5(content.encode()).hexdigest()` to its first eight hex
characters; the digest is computed here from the reference algorithm. -/

def w32 : Nat := 4294967296

def add32 (a b : Nat) : Nat := (a + b) % w32

def not32 (a : Nat) : Nat := Nat.xor a 4294967295

def rotl32 (x s : Nat) : Nat := ((x <<< s) % w32) ||| (x >>> (32 - s))

/-- The 64 sine-derived MD5 round constants. -/
def md5K : List Nat :=
  [3614090360, 3905402710, 606105819, 3250441966, 4118548399, 1200080426,
   2821735955, 4249261313, 1770035416, 2336552879, 4294925233, 2304563134,
   1804603682, 4254626195, 2792965006, 1236535329, 4129170786, 3225465664,
   643717713, 3921069994, 3593408605, 38016083, 3634488961, 3889429448,
   568446438, 3275163606, 4107603335, 1163531501, 2850285829, 4243563512,
   1735328473, 2368359562, 4294588738, 2272392833, 1839030562, 4259657740,
   2763975236, 1272893353, 4139469664, 3200236656, 681279174, 3936430074,
   3572445317, 76029189, 3654602809, 3873151461, 530742520, 3299628645,
   4096336452, 1126891415, 2878612391, 4237533241, 1700485571, 2399980690,
   4293915773, 2240044497, 1873313359, 4264355552, 2734768916, 1309151649,
   4149444226, 3174756917, 718787259, 3951481745]

/-- The per-round left-rotation amounts. -/
def md5S : List Nat :=
  [7, 12, 17, 22, 7, 12, 17, 22, 7, 12, 17, 22, 7, 12, 17, 22,
   5, 9, 14, 20, 5, 9, 14, 20, 5, 9, 14, 20, 5, 9, 14, 20,
   4, 11, 16, 23, 4, 11, 16, 23, 4, 11, 16, 23, 4, 11, 16, 23,
   6, 10, 15, 21, 6, 10, 15, 21, 6, 10, 15, 21, 6, 10, 15, 21]

/-- `k` little-endian bytes of `n`. -/
def leBytes (k n : Nat) : List Nat :=
  match k with
  | 0 => []
  | k + 1 => n % 256 :: leBytes k (n / 256)

/-- Read a little-endian 32-bit word from a byte list. -/
def leWord (bs : List Nat) : Nat := bs.foldr (fun b acc => acc * 256 + b) 0

/-- MD5 padding: a `0x80` byte, zeros to 56 mod 64, then the bit length
as eight little-endian bytes. -/
def md5Pad (msg : List Nat) : List Nat :=
  let len := msg.length
  let z := (120 - (len + 1) % 64) % 64
  msg ++ [128] ++ List.replicate z 0 ++ leBytes 8 (len * 8)

/-- The sixteen message words of one 64-byte chunk. -/
def chunkWords (chunk : List Nat) : List Nat :=
  (List.range 16).map (fun i => leWord ((chunk.drop (4 * i)).take 4))

/-- One MD5 round applied to the running state. -/
def md5Round (M : List Nat) (st : Nat × Nat × Nat × Nat) (i : Nat) :
    Nat × Nat × Nat × Nat :=
  let (a, b, c, d) := st
  let f :=
    if i < 16 then (b &&& c) ||| (not32 b &&& d)
    else if i < 32 then (d &&& b) ||| (not32 d &&& c)
    else if i < 48 then Nat.xor (Nat.xor b c) d
    else Nat.xor c (b ||| not32 d)
  let g :=
    if i < 16 then i
    else if i < 32 then (5 * i + 1) % 16
    else if i < 48 then (3 * i + 5) % 16
    else (7 * i) % 16
  let tmp := add32 (add32 (add32 a f) (md5K.getD i 0)) (M.getD g 0)
  (d, add32 b (rotl32 tmp (md5S.getD i 0)), b, c)

/-- Process one 64-byte chunk. -/
def md5Chunk (st : Nat × Nat × Nat × Nat) (chunk : List Nat) :
    Nat × Nat × Nat × Nat :=
  let M := chunkWords chunk
  let r := (List.range 64).foldl (md5Round M) st
  (add32 st.1 r.1, add32 st.2.1 r.2.1, add32 st.2.2.1 r.2.2.1,
   add32 st.2.2.2 r.2.2.2)

/-- Split a byte list into 64-byte chunks (structural fuel, instantiated
with the input length). -/
def chunksAux : Nat → List Nat → List (List Nat)
  | _, [] => []
  | 0, _ => []
  | fuel + 1, c :: rest => ((c :: rest).take 64) :: chunksAux fuel ((c :: rest).drop 64)

def chunks64 (l : List Nat) : List (List Nat) := chunksAux l.length l

def hexChar (n : Nat) : Char :=
  if n < 10 then Char.ofNat (48 + n) else Char.ofNat (87 + n)

def byteHex (b : Nat) : List Char := [hexChar (b / 16), hexChar (b % 16)]

/-- The sixteen digest bytes of a message. -/
def md5Bytes (msg : List Nat) : List Nat :=
  let r := (chunks64 (md5Pad msg)).foldl md5Chunk
    (1732584193, 4023233417, 2562383102, 271733878)
  leBytes 4 r.1 ++ leBytes 4 r.2.1 ++ leBytes 4 r.2.2.1 ++ leBytes 4 r.2.2.2

/-- `hashlib.md5(msg).hexdigest()`. -/
def md5Hexdigest (msg : List Nat) : String := ⟨((md5Bytes msg).map byteHex).flatten⟩

/-- `hashlib.md5(s.encode()).hexdigest()[:8]`. -/
def md5Hex8 (s : String) : String := ⟨(md5Hexdigest (utf8Encode s)).data.take 8⟩

/-- Sanity check of the digest model against a published test vector. -/
theorem md5_vector_abc :
    md5Hexdigest (utf8Encode "abc") = "900150983cd24fb0d6963f7d28e17f72" := by
  decide

/-- Sanity check of the padding path for the empty message. -/
theorem md5_vector_empty :
    md5Hexdigest (utf8Encode "") = "d41d8cd98f00b204e9800998ecf8427e" := by
  decide

/-! ### Data model (parser.py)

A `Part` is the triple `(content_type, resource_id, content)` appended to
`MHTMLParser.dataset`.  `Env` packages the library and filesystem
primitives the package calls but does not define: `base64.b64decode` /
`quopri.decodestring` (`none` models the exception path), the lossy
`bytes.decode('utf-8', errors='ignore')`, `os.path.getsize` combined
with `os.path.exists` (`none` models a missing file), and the success of
a binary file write. -/

structure Part where
  ct : String
  rid : String
  content : String
deriving DecidableEq, Repr

structure Env where
  b64Bytes : String → Option (List Nat)
  utf8Ignore : List Nat → String
  qpBytes : String → Option (List Nat)
  sizeOf : String → Option Nat
  writeOk : String → Bool

/-- Python `dict` assignment on an insertion-ordered association list:
an existing key keeps its position and takes the new value, a new key is
appended. -/
def upsert {α : Type} (k : String) (v : α) : List (String × α) → List (String × α)
  | [] => [(k, v)]
  | (k', v') :: rest => if k' = k then (k, v) :: rest else (k', v') :: upsert k v rest

/-- Python `dict` lookup on the association-list model. -/
def lookupA {α : Type} (k : String) : List (String × α) → Option α
  | [] => none
  | (k', v) :: rest => if k' = k then some v else lookupA k rest

/-- `os.path.join` for the POSIX paths the package builds. -/
def pyJoinPath (a b : String) : String :=
  if pyStartsWith b "/" then b
  else if a = "" then b
  else if a.data.getLast? = some '/' then a ++ b
  else a ++ "/" ++ b

/-- `os.path.basename`. -/
def pyBasename (p : String) : String := ((pySplit "/" p).getLast?).getD p

/-! ### MHTMLParser -/

/-- parser.py `_decode_base64`: the local `data` is rebound to
`''.join(data.split())` first, so a decoding exception returns the
WHITESPACE-STRIPPED payload, not the original input; on success the
bytes are lossily re-decoded as UTF-8. -/
def decodeBase64 (env : Env) (data : String) : String :=
  let stripped := stripAllWS data
  match env.b64Bytes stripped with
  | some bs => env.utf8Ignore bs
  | none => stripped

/-- parser.py `_decode_quoted_printable`, with the same fallback. -/
def decodeQuotedPrintable (env : Env) (data : String) : String :=
  match env.qpBytes data with
  | some bs => env.utf8Ignore bs
  | none => data

/-- parser.py `_get_header_value`:
`line.split(':', 1)[1].strip().rstrip(';').strip()`, or `""` when the
line has no colon. -/
def getHeaderValue (line : String) : String :=
  match pySplitOnce ":" line with
  | none => ""
  | some p => pyStrip (pyRstrip [';'] (pyStrip p.2))

/-- parser.py `_get_image_extension`. -/
def getImageExtension (contentType : String) : String :=
  let l := pyLower contentType
  if l = "image/jpeg" then ".jpg"
  else if l = "image/jpg" then ".jpg"
  else if l = "image/png" then ".png"
  else if l = "image/gif" then ".gif"
  else if l = "image/webp" then ".webp"
  else if l = "image/bmp" then ".bmp"
  else if l = "image/x-icon" then ".ico"
  else if l = "image/vnd.microsoft.icon" then ".ico"
  else if l = "image/svg+xml" then ".svg"
  else ".img"

/-- `re.sub(r'[<>:"/\\|?*]', '_', name)`, character by character. -/
def sanitizeChar (c : Char) : Char :=
  if c ∈ ['<', '>', ':', '"', '/', '\\', '|', '?', '*'] then '_' else c

/-- Index of the last occurrence of `c` in `l`. -/
def lastIndexOf (c : Char) (l : List Char) : Option Nat :=
  (List.range l.length).foldl
    (fun acc i => if l.getD i ' ' = c then some i else acc) none

/-- `os.path.splitext(p)[0]` (POSIX rules: split at the last dot of the
basename unless every character before it is a dot). -/
def splitextRoot (s : String) : String :=
  let p := s.data
  match lastIndexOf '.' p with
  | none => s
  | some d =>
    let start := match lastIndexOf '/' p with | none => 0 | some sp => sp + 1
    let sepOk := match lastIndexOf '/' p with | none => true | some sp => decide (sp < d)
    if sepOk && (List.range' start (d - start)).any (fun j => p.getD j '.' != '.') then
      ⟨p.take d⟩
    else s

/-- parser.py `_generate_image_filename`:
`sanitize(name)` stripped of its path and extension, `"_"`, the first
eight hex characters of the md5 of the content's UTF-8 bytes, and the
extension derived from the content type. -/
def generateImageFilename (originalName content contentType : String) : String :=
  let contentHash := md5Hex8 content
  let ext := getImageExtension contentType
  let s1 : String := ⟨originalName.data.map sanitizeChar⟩
  let s2 := ((pySplit "/" s1).getLast?).getD s1
  let s3 := ((pySplit "\\" s2).getLast?).getD s2
  let safeName := splitextRoot s3
  safeName ++ "_" ++ contentHash ++ ext

/-- The header fields `_process_part`'s scanning loop accumulates. -/
structure HeaderScan where
  ct : String
  loc : String
  enc : String
  fname : String
  cid : String
  charset : String
  contentRev : List String
  headerDone : Bool
deriving DecidableEq, Repr

def initScan : HeaderScan := ⟨"", "", "", "", "", "utf-8", [], false⟩

/-- The `filename=` extraction of `_process_part` (quoted, single-quoted
or bare); `none` models the caught `IndexError` (value kept unchanged). -/
def parseFilenameValue (line : String) : Option String :=
  if pyContains line "\"" then
    match (pySplit "=\"" line).get? 1 with
    | some v => some (pyRstrip ['"'] v)
    | none => none
  else if pyContains line "'" then
    match (pySplit "='" line).get? 1 with
    | some v => some (pyRstrip ['\''] v)
    | none => none
  else
    match (pySplit "=" line).get? 1 with
    | some v => some (pyStrip v)
    | none => none

/-- The `content-id` extraction of `_process_part`:
`line.split(':')[1].strip().strip('<>')`, `none` on `IndexError`. -/
def parseCidValue (line : String) : Option String :=
  match (pySplit ":" line).get? 1 with
  | some v => some (pyStripSet ['<', '>'] (pyStrip v))
  | none => none

/-- One iteration of `_process_part`'s loop over the part's lines. -/
def scanStep (st : HeaderScan) (rawLine : String) : HeaderScan :=
  let line := pyStrip rawLine
  if st.headerDone then
    { st with contentRev := line :: st.contentRev }
  else if line = "" then
    { st with headerDone := true }
  else
    let ll := pyLower line
    if pyContains ll "content-type" then { st with ct := getHeaderValue line }
    else if pyContains ll "content-location" then { st with loc := getHeaderValue line }
    else if pyContains ll "content-transfer-encoding" then
      { st with enc := getHeaderValue line }
    else if pyContains ll "filename=" then
      match parseFilenameValue line with
      | some v => { st with fname := v }
      | none => st
    else if pyContains ll "content-id" then
      match parseCidValue line with
      | some v => { st with cid := v }
      | none => st
    else if pyContains ll "charset" then { st with charset := getHeaderValue line }
    else st

/-- The decode step of `_process_part` applied to the joined content. -/
def processContent (env : Env) (enc ct content : String) : String :=
  if pyLower enc = "base64" then
    if pyStartsWith ct "image/" then content else decodeBase64 env content
  else if pyLower enc = "quoted-printable" then
    decodeQuotedPrintable env content
  else content

/-- parser.py `_process_part`: the returned
`(content_type, resource_id, content)` triple. -/
def processPart (env : Env) (lines : List String) : Part :=
  let h := lines.foldl scanStep initScan
  let content := String.intercalate "\n" h.contentRev.reverse
  let content := processContent env h.enc h.ct content
  let rid := if h.cid ≠ "" then h.cid else if h.fname ≠ "" then h.fname else h.loc
  ⟨h.ct, rid, content⟩

/-- parser.py `_find_boundary` applied to one line; `none` models the
caught `IndexError` (scan continues with the next line). -/
def boundaryOfLine (rawLine : String) : Option String :=
  let line := pyStrip rawLine
  if pyContains (pyLower line) "boundary" then
    if pyContains line "\"" then
      match (pySplit "=\"" line).get? 1 with
      | some v => some (pyRstrip ['"'] v)
      | none => none
    else if pyContains line "'" then
      match (pySplit "='" line).get? 1 with
      | some v => some (pyRstrip ['\''] v)
      | none => none
    else
      match (pySplit "=" line).get? 1 with
      | some v => some (pyStrip v)
      | none => none
  else none

/-- parser.py `_find_boundary`. -/
def findBoundary : List String → Option String
  | [] => none
  | l :: rest =>
    match boundaryOfLine l with
    | some b => some b
    | none => findBoundary rest

/-- The segmentation state of `parse`'s main loop. -/
structure SegState where
  current : List String
  inContent : Bool
  bufs : List (List String)
deriving DecidableEq, Repr

/-- One iteration of `parse`'s segmentation loop. -/
def segStep (boundary : String) (st : SegState) (line : String) : SegState :=
  if pyContains line boundary then
    let bufs := if st.current ≠ [] ∧ st.inContent then st.bufs ++ [st.current] else st.bufs
    ⟨[], true, bufs⟩
  else if st.inContent then ⟨st.current ++ [line], true, st.bufs⟩
  else st

/-- The part buffers `parse` closes (including the implicit close at
end of input). -/
def segmentParts (boundary : String) (lines : List String) : List (List String) :=
  let st := lines.foldl (segStep boundary) ⟨[], false, []⟩
  if st.current ≠ [] ∧ st.inContent then st.bufs ++ [st.current] else st.bufs

/-- The mutable parser state `parse` updates: `self.dataset` and
`self._image_content_types`. -/
structure PState where
  dataset : List Part
  ictypes : List (String × String)
deriving DecidableEq, Repr

def initPState : PState := ⟨[], []⟩

/-- The two fatal errors `parse` can raise: `"No MHTML content set"`
(the spec's ConfigurationError) and
`"Could not find boundary in MHTML content"` (the spec's FormatError). -/
inductive ParseErr where
  | noContent
  | noBoundary
deriving DecidableEq, Repr

/-- The `_image_content_types[resource_id] = content_type` update
`_process_part` performs for `image/*` parts. -/
def recordImageType (p : Part) (ict : List (String × String)) : List (String × String) :=
  if pyStartsWith p.ct "image/" then upsert p.rid p.ct ict else ict

/-- The dataset/ictypes update for one closed part buffer: the part is
appended only when its content type or resource id is non-empty. -/
def partStep (env : Env) (s : PState) (buf : List String) : PState :=
  let p := processPart env buf
  let ict := recordImageType p s.ictypes
  if p.ct != "" || p.rid != "" then ⟨s.dataset ++ [p], ict⟩ else ⟨s.dataset, ict⟩

/-- parser.py `parse`: one call as a state transition.  An error is
raised before any part of this call is appended.  The `if not
self.boundary` guard raises the FormatError both when no boundary was
found and when the extracted boundary is the EMPTY string (falsy). -/
def parseRun (env : Env) (content : String) (st : PState) : Except ParseErr PState :=
  if content = "" then .error .noContent
  else
    match findBoundary (pySplitlines content) with
    | none => .error .noBoundary
    | some b =>
      if b = "" then .error .noBoundary
      else .ok ((segmentParts b (pySplitlines content)).foldl (partStep env) st)

/-- The parts one successful `parse` call appends (derived view). -/
def parseParts (env : Env) (content : String) : List Part :=
  match findBoundary (pySplitlines content) with
  | none => []
  | some b =>
    if b = "" then []
    else
      ((segmentParts b (pySplitlines content)).map (processPart env)).filter
        (fun p => p.ct != "" || p.rid != "")

/-- The result of `extract_images`: `self._image_paths` (rebuilt from
empty) and `self._missing_images` (accumulated). -/
structure ExtractResult where
  imagePaths : List (String × String)
  missing : List (String × String)
deriving DecidableEq, Repr

/-- parser.py `extract_images`, one dataset entry: skip non-image or
nameless parts; a base64 decode failure or write failure is recorded in
the missing map and the next part is processed. -/
def extractStep (env : Env) (outputDir : String) (r : ExtractResult) (p : Part) :
    ExtractResult :=
  if !pyStartsWith p.ct "image/" || p.rid == "" then r
  else
    let filename := generateImageFilename p.rid p.content p.ct
    let imagePath := pyJoinPath outputDir filename
    match env.b64Bytes (stripAllWS p.content) with
    | none =>
      ⟨r.imagePaths,
       upsert p.rid "Failed to decode/save image: invalid base64 payload" r.missing⟩
    | some _ =>
      if env.writeOk imagePath then ⟨upsert p.rid filename r.imagePaths, r.missing⟩
      else
        ⟨r.imagePaths,
         upsert p.rid "Failed to decode/save image: write error" r.missing⟩

/-- parser.py `extract_images` over a dataset, starting from the already
accumulated missing map. -/
def extractImages (env : Env) (outputDir : String) (missing0 : List (String × String))
    (dataset : List Part) : ExtractResult :=
  dataset.foldl (extractStep env outputDir) ⟨[], missing0⟩

/-- parser.py `_fix_html_paths`: the six reference shapes rewritten per
registered image. -/
def fixPatterns (name : String) : List String :=
  ["src=\"cid:" ++ name ++ "\"",
   "src=\"" ++ name ++ "\"",
   "src='" ++ name ++ "'",
   "src=\"cid:" ++ name ++ ".dat\"",
   "src=\"" ++ name ++ ".dat\"",
   "src='" ++ name ++ ".dat'"]

/-- parser.py `_fix_html_paths`. -/
def fixHtmlPaths (imagePaths : List (String × String)) (html : String) : String :=
  imagePaths.foldl
    (fun h nf =>
      (fixPatterns nf.1).foldl
        (fun h pat => replaceCI h pat ("src=\"images/" ++ nf.2 ++ "\"")) h)
    html

/-- The single fatal error of `get_html`:
`"No HTML content found in MHTML file"` (the spec's ContentError). -/
inductive HtmlErr where
  | noHtml
deriving DecidableEq, Repr

/-- The initial loop of `get_html`: the content of the first part whose
content type is exactly `text/html`, or `""`. -/
def firstHtmlContent : List Part → String
  | [] => ""
  | p :: rest => if p.ct = "text/html" then p.content else firstHtmlContent rest

/-- The `image_map` accumulation of `get_html` (`image_map[name] =
(content_type, content)` over the dataset). -/
def buildImageMap (dataset : List Part) : List (String × String × String) :=
  dataset.foldl
    (fun m p => if pyStartsWith p.ct "image/" then upsert p.rid (p.ct, p.content) m else m)
    []

/-- The double-quoted `cid:`/bare replacement of one image reference by
its data URI in `get_html`'s embedded branch. -/
def embedOne (h : String) (e : String × String × String) : String :=
  let dataUri := "data:" ++ e.2.1 ++ ";base64," ++ e.2.2
  let h := replaceCI h ("src=\"cid:" ++ e.1 ++ "\"") ("src=\"" ++ dataUri ++ "\"")
  replaceCI h ("src=\"" ++ e.1 ++ "\"") ("src=\"" ++ dataUri ++ "\"")

/-- parser.py `get_html`. -/
def getHtml (decodeImages : Bool) (dataset : List Part)
    (imagePaths : List (String × String)) (embeddedImages : Bool) :
    Except HtmlErr String :=
  let htmlContent := firstHtmlContent dataset
  if htmlContent = "" then .error .noHtml
  else if embeddedImages then
    .ok ((buildImageMap dataset).foldl
      (fun h e => if decodeImages then embedOne h e else h) htmlContent)
  else .ok (fixHtmlPaths imagePaths htmlContent)

/-! ### MHTMLSplitter -/

/-- splitter.py `_save_html_file`: one image's two `str.replace` passes
(`cid:<id>` and `"<id>"` to the `images/<basename>` path). -/
def saveRewriteStep (content : String) (nf : String × String) : String :=
  let relativePath := pyJoinPath "images" (pyBasename nf.2)
  let c := pyReplace content ("cid:" ++ nf.1) relativePath
  pyReplace c ("\"" ++ nf.1 ++ "\"") ("\"" ++ relativePath ++ "\"")

/-- splitter.py `_save_html_file`: the content as written (the reference
rewrite applied over the whole registry, in insertion order). -/
def saveRewrite (imagePaths : List (String × String)) (content : String) : String :=
  imagePaths.foldl saveRewriteStep content

/-- splitter.py `_calculate_line_images_size`: the on-disk size of every
registered image whose resource id occurs in the line (`env.sizeOf`
models `os.path.exists` plus `os.path.getsize`). -/
def calculateLineImagesSize (env : Env) (line : String)
    (imagePaths : List (String × String)) : Nat :=
  imagePaths.foldl
    (fun total nf =>
      if pyContains line nf.1 then
        match env.sizeOf nf.2 with
        | some sz => total + sz
        | none => total
      else total)
    0

/-- The accounted size of one line: its UTF-8 byte length plus the sizes
of the images it references. -/
def lineAcctSize (env : Env) (imagePaths : List (String × String)) (line : String) : Nat :=
  utf8Len line + calculateLineImagesSize env line imagePaths

/-- First index at or after `i` where `pat` matches case-insensitively
(`l` is the input suffix starting at index `i`). -/
def findCIAux (pat : List Char) : List Char → Nat → Option Nat
  | [], i => if pat.isEmpty then some i else none
  | c :: rest, i =>
    if ciPrefixOf pat (c :: rest) then some i else findCIAux pat rest (i + 1)

/-- splitter.py `_extract_header_template`: the lazy
`re.search(r'(<html.*?<body.*?>)', html, DOTALL | IGNORECASE)` match, or
the `<html><body>` default.  The lazy quantifiers take the first
`<html`, the first subsequent `<body` and the first subsequent `>`. -/
def extractHeaderTemplate (html : String) : String :=
  let s := html.data
  match findCIAux ['<', 'h', 't', 'm', 'l'] s 0 with
  | none => "<html><body>"
  | some i =>
    match findCIAux ['<', 'b', 'o', 'd', 'y'] (s.drop (i + 5)) (i + 5) with
    | none => "<html><body>"
    | some j =>
      match findCIAux ['>'] (s.drop (j + 5)) (j + 5) with
      | none => "<html><body>"
      | some k => ⟨(s.take (k + 1)).drop i⟩

/-- splitter.py `_build_html_content` (the buffered lines are joined
with `''.join`, not with newlines). -/
def buildHtmlContent (header : String) (content : List String) : String :=
  header ++ "\n" ++ String.intercalate "" content ++ "\n</body></html>"

/-- The loop state of `_split_large_file`: flushed buffers, the running
accounted size and the current buffer. -/
structure SplitState where
  outputFiles : List (List String)
  currentSize : Nat
  currentContent : List String
deriving DecidableEq, Repr

/-- One iteration of `_split_large_file`'s loop: flush the buffer first
when adding the line would push the accounted size over the limit, then
append the line. -/
def splitStep (env : Env) (imagePaths : List (String × String)) (limit : Nat)
    (st : SplitState) (line : String) : SplitState :=
  let sz := lineAcctSize env imagePaths line
  let st := if st.currentSize + sz > limit then ⟨st.outputFiles ++ [st.currentContent], 0, []⟩ else st
  ⟨st.outputFiles, st.currentSize + sz, st.currentContent ++ [line]⟩

/-- splitter.py `_split_large_file`: the sequence of line buffers
flushed as output files (the trailing buffer is flushed when non-empty). -/
def splitLargeBuffers (env : Env) (imagePaths : List (String × String))
    (maxSizeMB : Nat) (html : String) : List (List String) :=
  let limit := maxSizeMB * 1024 * 1024
  let st := (pySplit "\n" html).foldl (splitStep env imagePaths limit) ⟨[], 0, []⟩
  if st.currentContent ≠ [] then st.outputFiles ++ [st.currentContent] else st.outputFiles

/-- splitter.py `_split_large_file` including naming, wrapping and the
per-file reference rewrite: the list of `(path, written content)`. -/
def splitLargeFile (env : Env) (imagePaths : List (String × String))
    (maxSizeMB : Nat) (html baseName outputDir : String) : List (String × String) :=
  let header := extractHeaderTemplate html
  (splitLargeBuffers env imagePaths maxSizeMB html).enum.map
    (fun ib =>
      (pyJoinPath outputDir (baseName ++ "_" ++ toString (ib.1 + 1) ++ ".html"),
       saveRewrite imagePaths (buildHtmlContent header ib.2)))

/-- The fatal outcomes of `split_file`: a parse error or a missing
`text/html` part, both propagated to the caller. -/
inductive SplitErr where
  | parseFailed (e : ParseErr)
  | htmlFailed
deriving DecidableEq, Repr

/-- splitter.py `split_file` after the input text has been read: parse,
render non-embedded HTML (before `extract_images`, so with an empty
registry), extract images, then branch on `len(mhtml_content)` (the
float comparison `len / (1024*1024) <= max_size_mb` divides by a power
of two, which is exact, so it equals the integer comparison below). -/
def splitFile (env : Env) (maxSizeMB : Nat) (mhtmlContent baseName outputDir : String) :
    Except SplitErr (List (String × String)) :=
  let imagesDir := pyJoinPath outputDir "images"
  match parseRun env mhtmlContent initPState with
  | .error e => .error (.parseFailed e)
  | .ok st =>
    match getHtml true st.dataset [] false with
    | .error _ => .error .htmlFailed
    | .ok html =>
      let ex := extractImages env imagesDir [] st.dataset
      if mhtmlContent.length ≤ maxSizeMB * 1024 * 1024 then
        .ok [(pyJoinPath outputDir (baseName ++ ".html"), saveRewrite ex.imagePaths html)]
      else
        .ok (splitLargeFile env ex.imagePaths maxSizeMB html baseName outputDir)

/-- A concrete environment for closed evaluations: every base64 payload
is malformed, every write succeeds, no file has a measurable size. -/
def trivEnv : Env :=
  ⟨fun _ => none, fun _ => "", fun _ => none, fun _ => none, fun _ => true⟩

/-! ### Helper lemmas -/

instance {ε α : Type} [DecidableEq ε] [DecidableEq α] : DecidableEq (Except ε α) :=
  fun a b =>
    match a, b with
    | .ok x, .ok y =>
      if h : x = y then .isTrue (congrArg Except.ok h)
      else .isFalse (fun he => h (Except.ok.inj he))
    | .error x, .error y =>
      if h : x = y then .isTrue (congrArg Except.error h)
      else .isFalse (fun he => h (Except.error.inj he))
    | .ok _, .error _ => .isFalse (fun he => Except.noConfusion he)
    | .error _, .ok _ => .isFalse (fun he => Except.noConfusion he)

theorem length_le_sum_utf8 (l : List Char) : l.length ≤ (l.map Char.utf8Size).sum := by
  induction l with
  | nil => simp
  | cons c cs ih =>
    simp only [List.map_cons, List.sum_cons, List.length_cons]
    have := Char.utf8Size_pos c
    omega

theorem strLength_le_utf8Len (s : String) : s.length ≤ utf8Len s :=
  length_le_sum_utf8 s.data

theorem lookupA_upsert {α : Type} (k k' : String) (v : α) (l : List (String × α)) :
    lookupA k (upsert k' v l) = if k' = k then some v else lookupA k l := by
  induction l with
  | nil => simp [upsert, lookupA]
  | cons hd t ih =>
    obtain ⟨k2, v2⟩ := hd
    by_cases h1 : k2 = k'
    · subst h1
      simp only [upsert, if_pos rfl, lookupA]
      by_cases h2 : k2 = k <;> simp [h2]
    · simp only [upsert, if_neg h1, lookupA]
      by_cases h2 : k2 = k
      · subst h2
        have : k' ≠ k2 := fun he => h1 he.symm
        simp [this]
      · simp [h2, ih]

theorem firstHtmlContent_eq (d : List Part) :
    firstHtmlContent d =
      match d.find? (fun p => p.ct == "text/html") with
      | none => ""
      | some p => p.content := by
  induction d with
  | nil => rfl
  | cons p rest ih =>
    by_cases h : p.ct = "text/html"
    · simp [firstHtmlContent, h, List.find?]
    · have hb : (p.ct == "text/html") = false := by
        simp only [beq_eq_false_iff_ne, ne_eq]; exact h
      simp [firstHtmlContent, h, List.find?, hb, ih]

/-! ### C3: the decode policy after the header/content split -/

/-- The decode policy as the specification states it, written from the
claim's sentence: base64 with a non-`image/` content type decodes to
UTF-8 text (undecodable bytes ignored); base64 with an `image/` content
type is stored undecoded; quoted-printable decodes to UTF-8 text; any
other or absent transfer-encoding passes through unchanged.  (Like the
specification, the sentence leaves the behaviour on a malformed payload
to the Missing-Resource-Log claim: the base64 decoder's exception path
yields the whitespace-stripped payload, the quoted-printable decoder's
the unchanged input.) -/
def specDecodePolicy (env : Env) (enc ct raw : String) : String :=
  if pyLower enc = "base64" ∧ pyStartsWith ct "image/" = false then
    match env.b64Bytes (stripAllWS raw) with
    | some bs => env.utf8Ignore bs
    | none => stripAllWS raw
  else if pyLower enc = "base64" ∧ pyStartsWith ct "image/" = true then raw
  else if pyLower enc = "quoted-printable" then
    match env.qpBytes raw with
    | some bs => env.utf8Ignore bs
    | none => raw
  else raw

/-- C3: for every part buffer, the stored content of `_process_part`
follows exactly the claimed decode policy applied to the scanned
transfer-encoding, content type and joined raw content. -/
theorem c3_decode_policy (env : Env) (lines : List String) :
    (processPart env lines).content =
      specDecodePolicy env (lines.foldl scanStep initScan).enc
        (lines.foldl scanStep initScan).ct
        (String.intercalate "\n" (lines.foldl scanStep initScan).contentRev.reverse) := by
  unfold processPart processContent specDecodePolicy decodeBase64 decodeQuotedPrintable
  by_cases h1 : pyLower (lines.foldl scanStep initScan).enc = "base64" <;>
    by_cases h2 : pyStartsWith (lines.foldl scanStep initScan).ct "image/" = true <;>
      simp [h1, h2]

/-! ### C4: when `get_html` fails, and which part it renders -/

/-- C4 counterexample: a dataset that does contain a `text/html` part
(with empty content) on which `get_html` still fails, falsifying
"fails exactly when the dataset contains no text/html part". -/
theorem c4_counterexample :
    getHtml true [⟨"text/html", "a", ""⟩] [] true = .error .noHtml ∧
    ∃ p ∈ ([⟨"text/html", "a", ""⟩] : List Part), p.ct = "text/html" := by
  constructor
  · rfl
  · exact ⟨⟨"text/html", "a", ""⟩, by simp, rfl⟩

/-- C4 as amended: `get_html` fails with the ContentError exactly when
the dataset has no `text/html` part or the first such part has empty
content; otherwise the first `text/html` part's content is the basis of
the result, in both embedding modes. -/
theorem c4_first_html_rule (dec : Bool) (d : List Part)
    (paths : List (String × String)) (e : Bool) :
    getHtml dec d paths e =
      match d.find? (fun p => p.ct == "text/html") with
      | none => .error .noHtml
      | some p =>
        if p.content = "" then .error .noHtml
        else if e then
          .ok ((buildImageMap d).foldl
            (fun h q => if dec then embedOne h q else h) p.content)
        else .ok (fixHtmlPaths paths p.content) := by
  have hf := firstHtmlContent_eq d
  cases hq : d.find? (fun p => p.ct == "text/html") with
  | none =>
    rw [hq] at hf
    simp [getHtml, hf]
  | some p =>
    rw [hq] at hf
    by_cases hc : p.content = "" <;> simp [getHtml, hf, hc]

/-! ### C5: a boundary-less document -/

/-- C5 counterexample: the empty input has no extractable boundary in
any line, yet `parse` raises the no-content ConfigurationError, not the
FormatError the claim names. -/
theorem c5_counterexample :
    findBoundary (pySplitlines "") = none ∧
    parseRun trivEnv "" initPState = .error .noContent ∧
    ParseErr.noContent ≠ ParseErr.noBoundary := by
  refine ⟨rfl, rfl, ?_⟩
  intro h
  exact ParseErr.noConfusion h

/-- C5 as amended: for every NON-EMPTY input text from which no boundary
value can be extracted from any line, `parse` fails with the FormatError
and, the error being raised before the segmentation loop, no part is
appended (the state, and hence an initially empty dataset, is left
unchanged). -/
theorem c5_no_boundary_error (env : Env) (content : String) (st : PState)
    (hne : content ≠ "") (hb : findBoundary (pySplitlines content) = none) :
    parseRun env content st = .error .noBoundary := by
  unfold parseRun
  rw [if_neg hne, hb]

/-- C5 witness: a concrete non-empty boundary-less input. -/
theorem c5_witness : parseRun trivEnv "hello" initPState = .error .noBoundary :=
  c5_no_boundary_error trivEnv "hello" initPState (by decide) (by decide)

/-! ### C7: the embedded-images rewrite -/

/-- C7 counterexample: a single-quoted `src='i1'` reference to an image
part is left untouched by `get_html` in embedded mode, falsifying the
claim that both quote styles are replaced. -/
theorem c7_counterexample :
    getHtml true [⟨"text/html", "h", "<img src='i1'>"⟩, ⟨"image/png", "i1", "AAAA"⟩] [] true
      = .ok "<img src='i1'>" := by
  decide

/-- The embedded-mode rewrite as amended, written from the amended
sentence: for every image part (in `image_map` order) only the two
DOUBLE-quoted shapes `src="cid:<id>"` and `src="<id>"` are replaced,
case-insensitively, by `src="data:<content-type>;base64,<payload>"`. -/
def specEmbedAll (dataset : List Part) (html : String) : String :=
  (buildImageMap dataset).foldl
    (fun h e =>
      let uri := "data:" ++ e.2.1 ++ ";base64," ++ e.2.2
      (["src=\"cid:" ++ e.1 ++ "\"", "src=\"" ++ e.1 ++ "\""]).foldl
        (fun h pat => replaceCI h pat ("src=\"" ++ uri ++ "\"")) h)
    html

/-- C7 as amended: in embedded mode (with image decoding on, the
default), `get_html` performs exactly the double-quoted replacements of
`specEmbedAll`; single-quoted references are not rewritten (see
the counterexample). -/
theorem c7_embedded_rewrite (d : List Part) (paths : List (String × String)) :
    getHtml true d paths true =
      if firstHtmlContent d = "" then .error .noHtml
      else .ok (specEmbedAll d (firstHtmlContent d)) := by
  have hfun : (fun (h : String) (e : String × String × String) =>
      if true then embedOne h e else h) =
      (fun (h : String) (e : String × String × String) =>
        let uri := "data:" ++ e.2.1 ++ ";base64," ++ e.2.2
        (["src=\"cid:" ++ e.1 ++ "\"", "src=\"" ++ e.1 ++ "\""]).foldl
          (fun h pat => replaceCI h pat ("src=\"" ++ uri ++ "\"")) h) := by
    funext h e
    rfl
  unfold getHtml specEmbedAll
  rw [hfun]
  by_cases h : firstHtmlContent d = "" <;> simp [h]

/-! ### C9: the per-file reference rewrite -/

theorem replaceAux_no_occur (pat rep : List Char) :
    ∀ (l : List Char) (fuel : Nat), listContainsSub pat l = false →
      replaceAux pat rep fuel l = l := by
  intro l
  induction l with
  | nil => intro fuel _; cases fuel <;> rfl
  | cons c rest ih =>
    intro fuel h
    cases fuel with
    | zero => rfl
    | succ f =>
      unfold replaceAux
      simp only [listContainsSub, Bool.or_eq_false_iff] at h
      obtain ⟨h1, h2⟩ := h
      rw [if_neg]
      · rw [ih f h2]
      · intro hc
        rw [hc.1] at h1
        exact Bool.noConfusion h1

/-- `str.replace` is the identity when the pattern does not occur. -/
theorem pyReplace_no_occur (s pat rep : String) (h : pyContains s pat = false) :
    pyReplace s pat rep = s := by
  unfold pyReplace
  unfold pyContains at h
  rw [replaceAux_no_occur pat.data rep.data s.data s.data.length h]

/-- C9 counterexample: a registry whose first resource id coincides with
a rewritten `images/<filename>` path makes a second application of the
per-file rewrite perform further substitutions, falsifying idempotence
for every content string and every image registry. -/
theorem c9_counterexample :
    saveRewrite [("images/b_12345678.png", "a_00000000.png"), ("x", "b_12345678.png")]
        (saveRewrite [("images/b_12345678.png", "a_00000000.png"), ("x", "b_12345678.png")]
          "<img src=\"x\">") ≠
      saveRewrite [("images/b_12345678.png", "a_00000000.png"), ("x", "b_12345678.png")]
        "<img src=\"x\">" := by
  decide

/-- C9 as amended: the rewrite performs no substitution on content in
which, for every registry entry, neither `cid:<id>` nor the quoted
`"<id>"` occurs — in particular re-running it is a no-op whenever the
first run leaves no such token (the spec's own justification); full
idempotence for arbitrary registries fails (see the counterexample). -/
theorem c9_rewrite_noop (imagePaths : List (String × String)) (content : String)
    (h : ∀ nf ∈ imagePaths, pyContains content ("cid:" ++ nf.1) = false ∧
        pyContains content ("\"" ++ nf.1 ++ "\"") = false) :
    saveRewrite imagePaths content = content := by
  induction imagePaths with
  | nil => rfl
  | cons nf rest ih =>
    have hn := h nf (by simp)
    have hstep : saveRewriteStep content nf = content := by
      show pyReplace
          (pyReplace content ("cid:" ++ nf.1) (pyJoinPath "images" (pyBasename nf.2)))
          ("\"" ++ nf.1 ++ "\"")
          ("\"" ++ pyJoinPath "images" (pyBasename nf.2) ++ "\"") = content
      rw [pyReplace_no_occur _ _ _ hn.1, pyReplace_no_occur _ _ _ hn.2]
    unfold saveRewrite
    simp only [List.foldl_cons, hstep]
    exact ih (fun x hx => h x (by simp [hx]))

/-- C9 witness: already-rewritten content with no remaining tokens. -/
theorem c9_witness :
    saveRewrite [("i1", "f1.png")] "<img src=\"images/f1.png\">" =
      "<img src=\"images/f1.png\">" :=
  c9_rewrite_noop [("i1", "f1.png")] "<img src=\"images/f1.png\">" (by decide)

/-! ### C6: generated image filenames -/

/-- C6 counterexample: two distinct contents whose md5 digests share
their first eight hex characters (`7c5294b8`) produce the SAME generated
filename for the same original name and content type, falsifying "two
parts with identical name but different bytes never collide". -/
theorem c6_counterexample :
    ("p194560" : String) ≠ "p206842" ∧
    generateImageFilename "pic" "p194560" "image/png" =
      generateImageFilename "pic" "p206842" "image/png" := by
  constructor
  · decide
  · decide

/-- C6 as amended: the generated filename is a deterministic function of
(name, content, content type); identical stored bytes give the identical
filename, and different stored bytes give distinct filenames WHENEVER
their truncated eight-hex-character md5 digests differ (the hash is the
only content-dependent component, so a truncated-digest collision — see
the counterexample — is the only way two different contents collide). -/
theorem c6_filename_determinism (name ct c1 c2 : String) :
    (c1 = c2 → generateImageFilename name c1 ct = generateImageFilename name c2 ct) ∧
    (md5Hex8 c1 ≠ md5Hex8 c2 →
      generateImageFilename name c1 ct ≠ generateImageFilename name c2 ct) := by
  have hgen : ∀ c : String, generateImageFilename name c ct =
      splitextRoot (((pySplit "\\"
          (((pySplit "/" (⟨name.data.map sanitizeChar⟩ : String)).getLast?).getD
            ⟨name.data.map sanitizeChar⟩)).getLast?).getD
          (((pySplit "/" (⟨name.data.map sanitizeChar⟩ : String)).getLast?).getD
            ⟨name.data.map sanitizeChar⟩)) ++ "_" ++ md5Hex8 c ++
        getImageExtension ct := fun c => rfl
  constructor
  · intro h; rw [h]
  · intro hne heq
    apply hne
    rw [hgen c1, hgen c2] at heq
    have hd := congrArg String.data heq
    simp only [String.data_append] at hd
    have h3 := List.append_cancel_right hd
    have h4 := List.append_cancel_left h3
    exact String.ext h4

/-- C6 witness: equal contents agree, contents with different truncated
digests disagree. -/
theorem c6_witness :
    generateImageFilename "pic" "a" "image/png" =
      generateImageFilename "pic" "a" "image/png" ∧
    generateImageFilename "pic" "a" "image/png" ≠
      generateImageFilename "pic" "b" "image/png" :=
  ⟨(c6_filename_determinism "pic" "image/png" "a" "a").1 rfl,
   (c6_filename_determinism "pic" "image/png" "a" "b").2 (by decide)⟩

/-! ### C10: consecutive parse calls append -/

theorem foldl_partStep_dataset (env : Env) (bufs : List (List String)) :
    ∀ st : PState,
      (bufs.foldl (partStep env) st).dataset =
        st.dataset ++ (bufs.map (processPart env)).filter
          (fun p => p.ct != "" || p.rid != "") := by
  induction bufs with
  | nil => intro st; simp
  | cons b bs ih =>
    intro st
    simp only [List.foldl_cons, List.map_cons, List.filter_cons]
    rw [ih]
    by_cases h : ((processPart env b).ct != "" || (processPart env b).rid != "") = true
    · rw [if_pos h]
      simp only [partStep, if_pos h]
      simp
    · rw [if_neg h]
      simp only [partStep, if_neg h]

/-- C10: `parse` never clears the dataset: each successful call appends
exactly its recognized parts after the existing ones, so two consecutive
successful calls on the same instance with the same content leave the
recognized sequence twice, the second copy after the first. -/
theorem c10_parse_appends (env : Env) (content : String) (s1 s2 : PState)
    (h1 : parseRun env content initPState = .ok s1)
    (h2 : parseRun env content s1 = .ok s2) :
    s1.dataset = parseParts env content ∧
    s2.dataset = s1.dataset ++ s1.dataset := by
  have key : ∀ st st', parseRun env content st = .ok st' →
      st'.dataset = st.dataset ++ parseParts env content := by
    intro st st' h
    unfold parseRun at h
    by_cases hne : content = ""
    · rw [if_pos hne] at h
      exact absurd h (by simp)
    · rw [if_neg hne] at h
      cases hb : findBoundary (pySplitlines content) with
      | none =>
        rw [hb] at h
        exact absurd h (by simp)
      | some b =>
        rw [hb] at h
        by_cases hbe : b = ""
        · subst hbe
          simp at h
        · simp only [if_neg hbe] at h
          injection h with h
          rw [← h]
          unfold parseParts
          simp only [hb, if_neg hbe]
          exact foldl_partStep_dataset env _ st
  have k1 := key _ _ h1
  have k2 := key _ _ h2
  refine ⟨by rw [k1]; rfl, by rw [k2, k1]; rfl⟩

/-- The sample document for the closed evaluations: one `text/html` part
and one base64 `image/png` part with content id `img1`. -/
def sampleDoc : String :=
  "Content-Type: multipart/related; boundary=\"BOUND\"\n\n--BOUND\nContent-Type: text/html\n\n<p>hi</p>\n--BOUND\nContent-Type: image/png\nContent-ID: <img1>\nContent-Transfer-Encoding: base64\n\nQUJD\n--BOUND--\n"

def sampleS1 : PState :=
  ⟨[⟨"text/html", "", "<p>hi</p>"⟩, ⟨"image/png", "img1", "QUJD"⟩],
   [("img1", "image/png")]⟩

def sampleS2 : PState :=
  ⟨sampleS1.dataset ++ sampleS1.dataset, [("img1", "image/png")]⟩

/-- C10 witness: the sample document parsed twice in a row. -/
theorem c10_witness :
    sampleS1.dataset = parseParts trivEnv sampleDoc ∧
    sampleS2.dataset = sampleS1.dataset ++ sampleS1.dataset :=
  c10_parse_appends trivEnv sampleDoc sampleS1 sampleS2 (by decide) (by decide)

/-! ### C8: failure isolation and the Missing-Resource Log -/

/-- A document with a malformed-base64 `text/plain` part (resource id
`bad1`): its payload `!!!` fails every base64 decode of `trivEnv`. -/
def c8Doc : String :=
  "boundary=BB\n--BB\nContent-Type: text/plain\nContent-ID: <bad1>\nContent-Transfer-Encoding: base64\n\n!!!\n--BB\nContent-Type: text/html\n\n<p>ok</p>\n--BB--"

def c8State : PState :=
  ⟨[⟨"text/plain", "bad1", "!!!"⟩, ⟨"text/html", "", "<p>ok</p>"⟩], []⟩

/-- C8 counterexample: the malformed non-image base64 part does not abort
the parse, but it is NOT recorded in the Missing-Resource Log either —
after a parse and a full image extraction the log is empty, falsifying
"it is recorded in the Missing-Resource Log keyed by its resource-id". -/
theorem c8_counterexample :
    parseRun trivEnv c8Doc initPState = .ok c8State ∧
    (⟨"text/plain", "bad1", "!!!"⟩ : Part) ∈ c8State.dataset ∧
    (extractImages trivEnv "out/images" [] c8State.dataset).missing = [] := by
  refine ⟨by decide, by decide, by decide⟩

/-- `extractStep` with its local bindings unfolded. -/
theorem extractStep_eq (env : Env) (outDir : String) (r : ExtractResult) (p : Part) :
    extractStep env outDir r p =
      if (!pyStartsWith p.ct "image/" || p.rid == "") = true then r
      else
        match env.b64Bytes (stripAllWS p.content) with
        | none =>
          ⟨r.imagePaths,
           upsert p.rid "Failed to decode/save image: invalid base64 payload" r.missing⟩
        | some _ =>
          if env.writeOk (pyJoinPath outDir (generateImageFilename p.rid p.content p.ct))
              = true then
            ⟨upsert p.rid (generateImageFilename p.rid p.content p.ct) r.imagePaths,
             r.missing⟩
          else
            ⟨r.imagePaths,
             upsert p.rid "Failed to decode/save image: write error" r.missing⟩ := rfl

/-- Once a key carries a decode/save error in the missing map, the rest
of the extraction fold keeps an error of that shape under the key. -/
theorem extract_missing_mono (env : Env) (outDir : String) (k : String) :
    ∀ (parts : List Part) (r : ExtractResult),
      (∃ m, lookupA k r.missing = some m ∧
        pyStartsWith m "Failed to decode/save image:" = true) →
      ∃ m, lookupA k (parts.foldl (extractStep env outDir) r).missing = some m ∧
        pyStartsWith m "Failed to decode/save image:" = true := by
  intro parts
  induction parts with
  | nil => intro r h; exact h
  | cons p ps ih =>
    intro r h
    apply ih
    rw [extractStep_eq]
    by_cases h1 : (!pyStartsWith p.ct "image/" || p.rid == "") = true
    · rw [if_pos h1]; exact h
    · rw [if_neg h1]
      cases hb : env.b64Bytes (stripAllWS p.content) with
      | none =>
        simp only [lookupA_upsert]
        by_cases hk : p.rid = k
        · exact ⟨_, by rw [if_pos hk], by decide⟩
        · rw [if_neg hk]; exact h
      | some bs =>
        by_cases hw : env.writeOk
            (pyJoinPath outDir (generateImageFilename p.rid p.content p.ct)) = true
        · rw [if_pos hw]; exact h
        · rw [if_neg hw]
          simp only [lookupA_upsert]
          by_cases hk : p.rid = k
          · exact ⟨_, by rw [if_pos hk], by decide⟩
          · rw [if_neg hk]; exact h

/-- Once a key carries a generated filename in the image-path map, the
rest of the extraction fold keeps some filename under the key. -/
theorem extract_paths_mono (env : Env) (outDir : String) (k : String) :
    ∀ (parts : List Part) (r : ExtractResult),
      (∃ fn, lookupA k r.imagePaths = some fn) →
      ∃ fn, lookupA k (parts.foldl (extractStep env outDir) r).imagePaths = some fn := by
  intro parts
  induction parts with
  | nil => intro r h; exact h
  | cons p ps ih =>
    intro r h
    apply ih
    rw [extractStep_eq]
    by_cases h1 : (!pyStartsWith p.ct "image/" || p.rid == "") = true
    · rw [if_pos h1]; exact h
    · rw [if_neg h1]
      cases hb : env.b64Bytes (stripAllWS p.content) with
      | none => exact h
      | some bs =>
        by_cases hw : env.writeOk
            (pyJoinPath outDir (generateImageFilename p.rid p.content p.ct)) = true
        · rw [if_pos hw]
          simp only [lookupA_upsert]
          by_cases hk : p.rid = k
          · exact ⟨_, by rw [if_pos hk]⟩
          · rw [if_neg hk]; exact h
        · rw [if_neg hw]; exact h

/-- C8 as amended: an unsupported transfer-encoding or malformed base64
payload never aborts the parse (any non-empty document from which a
non-empty boundary is extracted parses), and
extraction failures are isolated: an image part whose payload fails the
base64 decode is recorded in the Missing-Resource Log under its resource
id with a descriptive error, while every image part whose decode and
write succeed still gets its file registered — but a malformed NON-image
part is passed through with no log entry (see the counterexample). -/
theorem c8_failure_isolation (env : Env) (content : String) (st : PState)
    (outDir : String) (dataset : List Part) (p : Part) :
    (content ≠ "" → ∀ b, findBoundary (pySplitlines content) = some b → b ≠ "" →
      ∃ st', parseRun env content st = .ok st') ∧
    (p ∈ dataset → pyStartsWith p.ct "image/" = true → p.rid ≠ "" →
      env.b64Bytes (stripAllWS p.content) = none →
      ∃ m, lookupA p.rid (extractImages env outDir [] dataset).missing = some m ∧
        pyStartsWith m "Failed to decode/save image:" = true) ∧
    (p ∈ dataset → pyStartsWith p.ct "image/" = true → p.rid ≠ "" →
      (∃ bs, env.b64Bytes (stripAllWS p.content) = some bs) →
      env.writeOk (pyJoinPath outDir (generateImageFilename p.rid p.content p.ct)) = true →
      ∃ fn, lookupA p.rid (extractImages env outDir [] dataset).imagePaths = some fn) := by
  have hcond : ∀ (hct : pyStartsWith p.ct "image/" = true), p.rid ≠ "" →
      ¬((!pyStartsWith p.ct "image/" || p.rid == "") = true) := by
    intro hct hrid hcontra
    rw [hct] at hcontra
    simp only [Bool.not_true, Bool.false_or] at hcontra
    exact hrid (by simpa using hcontra)
  refine ⟨?_, ?_, ?_⟩
  · intro hne b hb hbe
    unfold parseRun
    rw [if_neg hne]
    simp only [hb, if_neg hbe]
    exact ⟨_, rfl⟩
  · intro hp hct hrid hfail
    obtain ⟨pre, suf, hsplit⟩ := List.append_of_mem hp
    subst hsplit
    unfold extractImages
    rw [List.foldl_append, List.foldl_cons]
    apply extract_missing_mono
    have hstep : ∀ r : ExtractResult,
        extractStep env outDir r p =
          ⟨r.imagePaths,
           upsert p.rid "Failed to decode/save image: invalid base64 payload" r.missing⟩ := by
      intro r
      rw [extractStep_eq, if_neg (hcond hct hrid), hfail]
    rw [hstep]
    refine ⟨"Failed to decode/save image: invalid base64 payload", ?_, by decide⟩
    simp [lookupA_upsert]
  · intro hp hct hrid hok hw
    obtain ⟨bs, hbs⟩ := hok
    obtain ⟨pre, suf, hsplit⟩ := List.append_of_mem hp
    subst hsplit
    unfold extractImages
    rw [List.foldl_append, List.foldl_cons]
    apply extract_paths_mono
    have hstep : ∀ r : ExtractResult,
        extractStep env outDir r p =
          ⟨upsert p.rid (generateImageFilename p.rid p.content p.ct) r.imagePaths,
           r.missing⟩ := by
      intro r
      rw [extractStep_eq, if_neg (hcond hct hrid), hbs, if_pos hw]
    rw [hstep]
    refine ⟨generateImageFilename p.rid p.content p.ct, ?_⟩
    simp [lookupA_upsert]

/-- An environment whose base64 decoder accepts exactly `R0dP`. -/
def mixEnv : Env :=
  ⟨fun s => if s = "R0dP" then some [71, 79, 79] else none, fun _ => "",
   fun _ => none, fun _ => none, fun _ => true⟩

def c8Bad : Part := ⟨"image/png", "bad", "!!!"⟩

def c8Good : Part := ⟨"image/png", "good", "R0dP"⟩

def c8Data : List Part := [c8Bad, c8Good]

/-- C8 witness: the failing image part is logged, the succeeding one is
still extracted, and a boundary-bearing document parses. -/
theorem c8_witness :
    (∃ st', parseRun mixEnv c8Doc initPState = .ok st') ∧
    (∃ m, lookupA "bad" (extractImages mixEnv "imgs" [] c8Data).missing = some m ∧
      pyStartsWith m "Failed to decode/save image:" = true) ∧
    (∃ fn, lookupA "good" (extractImages mixEnv "imgs" [] c8Data).imagePaths = some fn) :=
  ⟨(c8_failure_isolation mixEnv c8Doc initPState "imgs" c8Data c8Bad).1
      (by decide) "BB" (by decide) (by decide),
   (c8_failure_isolation mixEnv c8Doc initPState "imgs" c8Data c8Bad).2.1
      (by decide) (by decide) (by decide) (by decide),
   (c8_failure_isolation mixEnv c8Doc initPState "imgs" c8Data c8Good).2.2
      (by decide) (by decide) (by decide) ⟨[71, 79, 79], by decide⟩ (by decide)⟩

/-! ### C1: accounted size of the split output files -/

/-- The accounted size of one buffered output file: the sum of its
lines' accounted sizes. -/
def acctSum (env : Env) (imagePaths : List (String × String)) (b : List String) : Nat :=
  (b.map (lineAcctSize env imagePaths)).sum

/-- `splitStep` with its local bindings unfolded. -/
theorem splitStep_eq (env : Env) (ip : List (String × String)) (limit : Nat)
    (st : SplitState) (line : String) :
    splitStep env ip limit st line =
      if st.currentSize + lineAcctSize env ip line > limit then
        ⟨st.outputFiles ++ [st.currentContent], lineAcctSize env ip line, [line]⟩
      else
        ⟨st.outputFiles, st.currentSize + lineAcctSize env ip line,
         st.currentContent ++ [line]⟩ := by
  unfold splitStep
  by_cases h : st.currentSize + lineAcctSize env ip line > limit <;> simp [h]

/-- The loop invariant of `_split_large_file`: the running size is the
accounted size of the current buffer, the current buffer respects the
limit unless it is a single line, and so does every flushed buffer. -/
theorem splitLoop_inv (env : Env) (ip : List (String × String)) (limit : Nat) :
    ∀ (lines : List String) (st : SplitState),
      st.currentSize = acctSum env ip st.currentContent →
      (st.currentSize ≤ limit ∨ st.currentContent.length = 1) →
      (∀ b ∈ st.outputFiles, acctSum env ip b ≤ limit ∨ b.length = 1) →
      ((lines.foldl (splitStep env ip limit) st).currentSize =
          acctSum env ip (lines.foldl (splitStep env ip limit) st).currentContent ∧
        ((lines.foldl (splitStep env ip limit) st).currentSize ≤ limit ∨
          (lines.foldl (splitStep env ip limit) st).currentContent.length = 1) ∧
        (∀ b ∈ (lines.foldl (splitStep env ip limit) st).outputFiles,
          acctSum env ip b ≤ limit ∨ b.length = 1)) := by
  intro lines
  induction lines with
  | nil => intro st h1 h2 h3; exact ⟨h1, h2, h3⟩
  | cons l ls ih =>
    intro st h1 h2 h3
    rw [List.foldl_cons, splitStep_eq]
    by_cases hc : st.currentSize + lineAcctSize env ip l > limit
    · rw [if_pos hc]
      apply ih
      · simp [acctSum]
      · right; rfl
      · intro b hb
        rcases List.mem_append.mp hb with hmem | hmem
        · exact h3 b hmem
        · simp only [List.mem_singleton] at hmem
          subst hmem
          rw [h1] at h2
          exact h2
    · rw [if_neg hc]
      apply ih
      · simp [acctSum, h1]
      · show st.currentSize + lineAcctSize env ip l ≤ limit ∨
            (st.currentContent ++ [l]).length = 1
        left
        omega
      · exact h3

/-- Every line of the input ends up, in order, in exactly one flushed or
pending buffer. -/
theorem splitLoop_flatten (env : Env) (ip : List (String × String)) (limit : Nat) :
    ∀ (lines : List String) (st : SplitState),
      (lines.foldl (splitStep env ip limit) st).outputFiles.flatten ++
        (lines.foldl (splitStep env ip limit) st).currentContent =
      st.outputFiles.flatten ++ st.currentContent ++ lines := by
  intro lines
  induction lines with
  | nil => intro st; simp
  | cons l ls ih =>
    intro st
    rw [List.foldl_cons, splitStep_eq]
    by_cases hc : st.currentSize + lineAcctSize env ip l > limit
    · rw [if_pos hc, ih]
      simp
    · rw [if_neg hc, ih]
      simp

/-- `splitLargeBuffers` with its local bindings unfolded. -/
theorem splitLargeBuffers_eq (env : Env) (ip : List (String × String))
    (maxSizeMB : Nat) (html : String) :
    splitLargeBuffers env ip maxSizeMB html =
      (if ((pySplit "\n" html).foldl
            (splitStep env ip (maxSizeMB * 1024 * 1024)) ⟨[], 0, []⟩).currentContent ≠ [] then
        ((pySplit "\n" html).foldl
            (splitStep env ip (maxSizeMB * 1024 * 1024)) ⟨[], 0, []⟩).outputFiles ++
          [((pySplit "\n" html).foldl
              (splitStep env ip (maxSizeMB * 1024 * 1024)) ⟨[], 0, []⟩).currentContent]
      else
        ((pySplit "\n" html).foldl
            (splitStep env ip (maxSizeMB * 1024 * 1024)) ⟨[], 0, []⟩).outputFiles) := rfl

/-- C1: every output buffer of `_split_large_file` has accounted size
(line UTF-8 bytes plus referenced on-disk image sizes) at most
`max_size_mb*1024*1024` unless it consists of a single (oversized) line,
which is still emitted whole as its own part; the buffer is flushed
before a line that would overflow, the remainder is flushed last, and
the buffers cover the input lines exactly, in order. -/
theorem c1_split_size_bound (env : Env) (imagePaths : List (String × String))
    (maxSizeMB : Nat) (html : String) :
    (∀ b ∈ splitLargeBuffers env imagePaths maxSizeMB html,
        acctSum env imagePaths b ≤ maxSizeMB * 1024 * 1024 ∨ b.length = 1) ∧
    (splitLargeBuffers env imagePaths maxSizeMB html).flatten = pySplit "\n" html := by
  have hinv := splitLoop_inv env imagePaths (maxSizeMB * 1024 * 1024)
    (pySplit "\n" html) ⟨[], 0, []⟩ (by simp [acctSum])
    (Or.inl (Nat.zero_le _)) (by intro b hb; simp at hb)
  have hfl := splitLoop_flatten env imagePaths (maxSizeMB * 1024 * 1024)
    (pySplit "\n" html) ⟨[], 0, []⟩
  simp only [SplitState.mk.injEq, List.flatten_nil, List.nil_append] at hfl
  rw [splitLargeBuffers_eq]
  by_cases hcc : ((pySplit "\n" html).foldl
      (splitStep env imagePaths (maxSizeMB * 1024 * 1024)) ⟨[], 0, []⟩).currentContent ≠ []
  · rw [if_pos hcc]
    constructor
    · intro b hb
      rcases List.mem_append.mp hb with hmem | hmem
      · exact hinv.2.2 b hmem
      · simp only [List.mem_singleton] at hmem
        subst hmem
        rw [← hinv.1]
        exact hinv.2.1
    · rw [List.flatten_append]
      simpa using hfl
  · rw [if_neg hcc]
    push_neg at hcc
    constructor
    · exact hinv.2.2
    · rw [hcc] at hfl
      simpa using hfl

/-- C1 witness: a two-line input with a zero limit, where each flushed
buffer is a single line. -/
theorem c1_witness :
    acctSum trivEnv [] ["a"] ≤ 0 * 1024 * 1024 ∨ (["a"] : List String).length = 1 :=
  (c1_split_size_bound trivEnv [] 0 "a\nb").1 ["a"] (by decide)

/-! ### C2: the single-file path of `split_file` -/

/-- C2: whenever the input's raw UTF-8 byte size is within
`max_size_mb*1024*1024`, a successful `split_file` run takes the
single-file path: it writes exactly one HTML file (the rewritten
rendering) and returns that single output path.  (The code compares the
CHARACTER count `len(mhtml_content)`, which never exceeds the UTF-8 byte
count, so the byte bound implies the branch condition.) -/
theorem c2_single_file (env : Env) (maxSizeMB : Nat)
    (content baseName outputDir : String) (st : PState) (html : String)
    (hsize : utf8Len content ≤ maxSizeMB * 1024 * 1024)
    (hp : parseRun env content initPState = .ok st)
    (hh : getHtml true st.dataset [] false = .ok html) :
    splitFile env maxSizeMB content baseName outputDir =
      .ok [(pyJoinPath outputDir (baseName ++ ".html"),
            saveRewrite
              (extractImages env (pyJoinPath outputDir "images") [] st.dataset).imagePaths
              html)] := by
  have hlen : content.length ≤ maxSizeMB * 1024 * 1024 :=
    le_trans (strLength_le_utf8Len content) hsize
  unfold splitFile
  rw [hp]
  simp only [hh]
  rw [if_pos hlen]

/-- C2 witness: the sample document is small, so one file comes back. -/
theorem c2_witness :
    splitFile trivEnv 1 sampleDoc "doc" "out" = .ok [("out/doc.html", "<p>hi</p>")] :=
  (c2_single_file trivEnv 1 sampleDoc "doc" "out" sampleS1 "<p>hi</p>"
    (by decide) (by decide) (by decide)).trans (by decide)

end MhtmlConv
